import Mathlib

/-!
# Verification of the go-spatial/go-wfs (jivan) request-handling core

This file gives a shallow embedding, in Lean 4, of the WFS3 request-handling
core of the go-wfs repository and proves properties of it.

The embedding follows the Go source:
* `wfs3/feature_collection_data.go` (`FeatureData`, `FeatureCollectionData`),
* `wfs3/collection_meta_data.go` (`CollectionsMetaData`, `CollectionMetaData`),
* `server/handlers.go` (`contentType`, `ctLink`, `collectionMetaData`,
  `collectionData`, `jsonError` and the status constants).

External collaborators are abstracted as inputs:
* the data provider is represented by the list of features (or collection
  names) it returns for the request, or by the error it reports;
* `strconv.ParseFloat` (Go standard library) is represented by a success
  oracle `String → Bool`, since only success/failure of bbox component
  parsing is observable in the handler's control flow;
* `serveSchemeHostPortBase` (whose definition is outside the analysed
  sources) is represented by its result string `sshpb`.

Machine integers: the Go code computes pagination indices in `uint` (64-bit),
so the embedding computes them in `Nat` with an explicit `% 2^64` wherever the
Go code can wrap.  Query-parameter values parsed by `strconv.ParseUint(_, 10, 64)`
are below `2^64` by construction.

Configuration constants (`config.JSONContentType`, `config.HTMLContentType`,
`config.SupportedContentTypes`, `config.Configuration.Server.DefaultMimeType`)
come from the `config` package, which is not among the analysed sources.
Modelled from the spec: the supported representations are JSON
(`application/json`) and HTML (`text/html`), with JSON the default; the
supported-content-type order `[JSON, HTML]` is fixed by the link order the
repository's own tests expect.  `config.Configuration.Server.MaxLimit` is kept
as an explicit parameter `maxLimit`.
-/

set_option maxRecDepth 4000

namespace GoWfs

/-! ## Configuration constants -/

/-- `config.JSONContentType`.  Modelled from the spec: JSON is the
structured-data representation; the tests compare it to this literal. -/
def JSONContentType : String := "application/json"

/-- `config.HTMLContentType`.  Modelled from the spec: HTML is the
human-readable representation; the tests compare it to this literal. -/
def HTMLContentType : String := "text/html"

/-- `config.SupportedContentTypes`.  Modelled from the spec: JSON and HTML are
supported; the order is the one the repository's tests expect for link lists. -/
def SupportedContentTypes : List String := [JSONContentType, HTMLContentType]

/-- `config.Configuration.Server.DefaultMimeType`.  Modelled from the spec:
the default representation is JSON (`ctLink` leaves the default type without
an `f` parameter, which matches the tests' JSON link expectations). -/
def DefaultMimeType : String := JSONContentType

/-- `server/handlers.go`: `DEFAULT_RESULT_LIMIT = 10`. -/
def DEFAULT_RESULT_LIMIT : Nat := 10

/-- `server/handlers.go` status constants. -/
def HTTPStatusOk : Nat := 200

def HTTPStatusNotModified : Nat := 304

def HTTPStatusServerError : Nat := 500

def HTTPStatusClientError : Nat := 400

def HTTPMethodGET : String := "GET"

def HTTPMethodHEAD : String := "HEAD"

/-- The modulus of Go's 64-bit `uint`. -/
def U64 : Nat := 2 ^ 64

/-! ## FNV-1 64-bit hashing (`hash/fnv`, `fnv.New64`) and `fmt.Sprintf("%x")` -/

/-- FNV-1 64-bit offset basis. -/
def fnvOffsetBasis : Nat := 14695981039346656037

/-- FNV-1 64-bit prime. -/
def fnvPrime : Nat := 1099511628211

/-- FNV-1 (not 1a): per byte, multiply by the prime (mod `2^64`) then xor. -/
def fnv1_64 (bytes : List Nat) : Nat :=
  bytes.foldl (fun h b => (h * fnvPrime % U64) ^^^ b) fnvOffsetBasis

/-- UTF-8 encoding of one character (Go strings are UTF-8 byte sequences). -/
def utf8Bytes (c : Char) : List Nat :=
  let n := c.toNat
  if n < 128 then [n]
  else if n < 2048 then [192 ||| (n >>> 6), 128 ||| (n &&& 63)]
  else if n < 65536 then [224 ||| (n >>> 12), 128 ||| ((n >>> 6) &&& 63), 128 ||| (n &&& 63)]
  else [240 ||| (n >>> 18), 128 ||| ((n >>> 12) &&& 63), 128 ||| ((n >>> 6) &&& 63), 128 ||| (n &&& 63)]

/-- The UTF-8 bytes of a string, as `hasher.Write([]byte(s))` consumes them. -/
def strBytes (s : String) : List Nat := (s.data.map utf8Bytes).flatten

def hexChar (d : Nat) : Char := if d < 10 then Char.ofNat (48 + d) else Char.ofNat (87 + d)

def hexAux : Nat → Nat → List Char → List Char
  | 0, _, acc => acc
  | fuel+1, n, acc => if n = 0 then acc else hexAux fuel (n / 16) (hexChar (n % 16) :: acc)

/-- Lower-case hexadecimal rendering without padding, as `fmt.Sprintf("%x", n)`
prints a `uint64`. -/
def hex (n : Nat) : String := if n = 0 then "0" else ⟨hexAux 64 n []⟩

/-- `fmt.Sprintf("%x", fnv64(s))`: the content id (ETag) format used throughout. -/
def fnvHex (s : String) : String := hex (fnv1_64 (strBytes s))

/-! ## Data model -/

/-- `wfs3.Link`. -/
structure Link where
  href : String
  rel : String
  type : String := ""
deriving Repr, DecidableEq

/-- A provider feature (`data_provider.Feature`): id, geometry (carried
opaquely; the core never inspects it) and properties. -/
structure ProviderFeature where
  id : Nat
  geometry : String := ""
  properties : List (String × String) := []
deriving Repr, DecidableEq

/-- `geojson.Feature` as the core constructs it from a provider feature. -/
structure GeojsonFeature where
  id : Nat
  geometry : String := ""
  properties : List (String × String) := []
deriving Repr, DecidableEq

/-- The per-feature conversion done in `FeatureData`/`FeatureCollectionData`:
`geojson.Feature{ID: &pf.ID, Geometry: ..., Properties: pf.Properties}`. -/
def toGeojsonFeature (pf : ProviderFeature) : GeojsonFeature :=
  { id := pf.id, geometry := pf.geometry, properties := pf.properties }

/-- `wfs3.FeatureCollection`: embedded geojson features plus links and the
pagination counts. -/
structure FeatureCollection where
  features : List GeojsonFeature
  links : List Link := []
  numberMatched : Nat := 0
  numberReturned : Nat := 0
deriving Repr, DecidableEq

/-- `wfs3.Feature`: embedded geojson feature plus links. -/
structure Feature where
  feature : GeojsonFeature
  links : List Link := []
deriving Repr, DecidableEq

/-- `wfs3.CollectionInfo`. -/
structure CollectionInfo where
  name : String
  title : String := ""
  description : String := ""
  links : List Link := []
deriving Repr, DecidableEq

/-- `wfs3.CollectionsInfo`. -/
structure CollectionsInfo where
  links : List Link := []
  collections : List CollectionInfo := []
deriving Repr, DecidableEq

/-- Errors reported by the data provider, as the handler distinguishes them:
`data_provider.BadTimeString` versus any other error.  Errors the wfs3 layer
itself creates (`fmt.Errorf`) are `other`. -/
inductive ProvErr where
  | badTimeString (msg : String)
  | other (msg : String)
deriving Repr, DecidableEq

def ProvErr.message : ProvErr → String
  | .badTimeString m => m
  | .other m => m

/-! ## wfs3 layer (`feature_collection_data.go`, `collection_meta_data.go`)

The data provider's reply is passed in as an `Except` value: `.ok fs` stands
for a successful `p.CollectionFeatures`/`p.GetFeatures` call returning `fs`,
`.error e` for a failed one. -/

/-- `wfs3.FeatureData` (with `checkOnly = false`, as the handler calls it).
`contentId` hashes `fmt.Sprintf("%v%v", cname, fid)`. -/
def FeatureData (cname : String) (fid : Nat)
    (provResult : Except ProvErr (List ProviderFeature)) :
    Except ProvErr (Feature × String) :=
  let contentId := fnvHex (cname ++ toString fid)
  match provResult with
  | .error e => .error e
  | .ok pfs =>
    match pfs with
    | [pf] => .ok ({ feature := toGeojsonFeature pf }, contentId)
    | _ => .error (.other ("Invalid collection/fid: " ++ cname ++ "/" ++ toString fid))

/-- `wfs3.FeatureCollectionData` (with `checkOnly = false`).  `contentId`
hashes the collection name only.  `stopIdx` is clamped to the total, then the
window is rejected when `startIdx >= featureTotal || stopIdx < startIdx`;
otherwise the features are `cfs[startIdx:stopIdx]` converted to geojson. -/
def FeatureCollectionData (cName : String)
    (provResult : Except ProvErr (List ProviderFeature))
    (startIdx stopIdx : Nat) :
    Except ProvErr (FeatureCollection × Nat × String) :=
  let contentId := fnvHex cName
  match provResult with
  | .error e => .error e
  | .ok cfs =>
    let featureTotal := cfs.length
    let originalStopIdx := stopIdx
    let stopIdx := if stopIdx > featureTotal then featureTotal else stopIdx
    if startIdx ≥ featureTotal ∨ stopIdx < startIdx then
      .error (.other ("Invalid start/stop indices [" ++ toString startIdx ++ ", "
        ++ toString originalStopIdx ++ "] for collection of length " ++ toString featureTotal))
    else
      let gfs := ((cfs.drop startIdx).take (stopIdx - startIdx)).map toGeojsonFeature
      .ok ({ features := gfs }, featureTotal, contentId)

/-- `wfs3.CollectionsMetaData` (with `checkOnly = false`).  `contentId` hashes
the serve address; the body lists one `CollectionInfo` plus two `item` links
per collection name. -/
def CollectionsMetaData (serveAddress : String)
    (cNames : Except String (List String)) :
    Except String (CollectionsInfo × String) :=
  let contentId := fnvHex serveAddress
  match cNames with
  | .error e => .error e
  | .ok ns =>
    let csInfo := ns.foldl (fun (acc : CollectionsInfo) cn =>
      let collectionUrl := serveAddress ++ "/collections/" ++ cn
      let cInfo : CollectionInfo :=
        { name := cn, links := [{ rel := "self", href := collectionUrl }] }
      let cLink : Link := { href := collectionUrl, rel := "item" }
      let collectionUrlHtml := collectionUrl ++ "?f=text/html"
      let cLinkHtml : Link := { href := collectionUrlHtml, rel := "item", type := "text/html" }
      { acc with links := acc.links ++ [cLink, cLinkHtml],
                 collections := acc.collections ++ [cInfo] })
      { links := [], collections := [] }
    .ok (csInfo, contentId)

/-- `wfs3.CollectionMetaData` (with `checkOnly = false`).  `contentId` hashes
serve-address ++ name; an unknown name is rejected. -/
def CollectionMetaData (name : String) (cNames : Except String (List String))
    (serveAddress : String) :
    Except String (CollectionInfo × String) :=
  let contentId := fnvHex (serveAddress ++ name)
  match cNames with
  | .error e => .error e
  | .ok ns =>
    if ns.contains name then
      let collectionUrl := serveAddress ++ "/collections/" ++ name
      .ok ({ name := name, title := name,
             links := [{ rel := "self", href := collectionUrl }] }, contentId)
    else
      .error ("Invalid collection name: " ++ name)

/-! ## HTTP request/response model -/

/-- The slice of an inbound `*http.Request` the handlers read: method, the
httprouter path parameters `{name}` and `{feature_id}` (empty string when
absent, as `Params.ByName` returns), the `ETag` and `Content-Type` headers
(empty when absent, as `Header.Get` returns), and the parsed query
(`url.Values`: each key maps to its list of values, keys distinct). -/
structure Request where
  method : String := "GET"
  nameParam : String := ""
  featureIdParam : String := ""
  etagHeader : String := ""
  contentTypeHeader : String := ""
  query : List (String × List String) := []
deriving Repr, DecidableEq

/-- `url.Values` lookup: `q["k"]` is the value list, `[]` when absent. -/
def qGet (q : List (String × List String)) (k : String) : List String :=
  (q.lookup k).getD []

/-- Response bodies, by shape: empty (HEAD), the `jsonError` object, or one of
the serialized envelopes.  JSON marshalling is kept at the envelope level. -/
inductive Body where
  | empty
  | errorObj (code description : String)
  | fc (c : FeatureCollection)
  | feature (f : Feature)
  | collection (c : CollectionInfo)
deriving Repr, DecidableEq

/-- The observable response: status code, `ETag` and `Content-Type` headers
(`none` when never set) and the body. -/
structure Response where
  status : Nat
  etag : Option String := none
  contentTypeHeader : Option String := none
  body : Body := .empty
deriving Repr, DecidableEq

/-- `server/handlers.go` `jsonError`: status plus `{code, description}` body.
`etag` carries whatever `ETag` header was set before the error was written. -/
def jsonError (etag : Option String) (code msg : String) (status : Nat) : Response :=
  { status := status, etag := etag, body := .errorObj code msg }

/-! ## Content negotiation (`supportedContentType`, `contentType`) -/

/-- `server/handlers.go` `supportedContentType`. -/
def supportedContentType (ct : String) : Bool :=
  [JSONContentType, HTMLContentType].contains ct

/-- `server/handlers.go` `contentType`: start from the `Content-Type` header
when supported; a present `f` query parameter overrides it (whether or not
`f` is supported); an unsupported result falls back to the JSON default. -/
def contentType (r : Request) : String :=
  let defaultContentType := JSONContentType
  let useType := ""
  let ctType := r.contentTypeHeader
  let useType := if supportedContentType ctType then ctType else useType
  let qFormat := qGet r.query "f"
  let useType :=
    match qFormat with
    | [] => useType
    | f0 :: _ => if f0 ≠ useType then f0 else useType
  if ¬ supportedContentType useType then defaultContentType else useType

/-! ## URL query re-encoding (`net/url` `Values.Encode`, `url.QueryEscape`)

`ctLink` and the prev/next link construction parse a URL they just built and
re-encode its query with `url.Values.Encode()`, which sorts keys and
percent-escapes keys and values.  The embedding keeps the URL structured as
path plus query pairs; `Encode` is modelled byte-for-byte. -/

def isUnreservedByte (b : Nat) : Bool :=
  (48 ≤ b ∧ b ≤ 57) ∨ (65 ≤ b ∧ b ≤ 90) ∨ (97 ≤ b ∧ b ≤ 122) ∨
    b = 45 ∨ b = 95 ∨ b = 46 ∨ b = 126

def hexCharUpper (d : Nat) : Char := if d < 10 then Char.ofNat (48 + d) else Char.ofNat (55 + d)

/-- One byte under Go's `url.QueryEscape`: alphanumerics and `-_.~` kept,
space becomes `+`, anything else `%XX` (upper-case hex). -/
def queryEscapeByte (b : Nat) : String :=
  if isUnreservedByte b then ⟨[Char.ofNat b]⟩
  else if b = 32 then "+"
  else ⟨['%', hexCharUpper (b / 16), hexCharUpper (b % 16)]⟩

def queryEscape (s : String) : String :=
  String.join ((strBytes s).map queryEscapeByte)

/-- Insertion of a pair into a key-sorted list, keeping insertion order among
equal keys (Go sorts the key set and emits each key's values in order). -/
def insertPairSorted (p : String × String) :
    List (String × String) → List (String × String)
  | [] => [p]
  | q :: rest =>
    if compare q.1 p.1 ≠ Ordering.gt then q :: insertPairSorted p rest
    else p :: q :: rest

def sortPairs : List (String × String) → List (String × String)
  | [] => []
  | p :: rest => insertPairSorted p (sortPairs rest)

/-- `url.Values.Encode()`: pairs sorted by key, each rendered
`escape(key)=escape(value)`, joined with `&`. -/
def encodeQuery (pairs : List (String × String)) : String :=
  String.intercalate "&" ((sortPairs pairs).map
    (fun kv => queryEscape kv.1 ++ "=" ++ queryEscape kv.2))

/-- `server/handlers.go` `ctLink`, with the base link kept structured as a
query-free path plus query pairs (every call site builds the base that way):
add `f=contentType` unless it is the default type, then re-encode.  A URL
with an empty query prints without `?`. -/
def ctLink (basePath : String) (baseQuery : List (String × String))
    (contentType : String) : String :=
  let q := if contentType = DefaultMimeType then baseQuery
           else baseQuery ++ [("f", contentType)]
  match q with
  | [] => basePath
  | _ => basePath ++ "?" ++ encodeQuery q

/-- The prev/next link of `collectionData`:
`fmt.Sprintf("%v/collections/%v/items?page=%v&limit=%v", sshpb, cName, page, limit)`
parsed by `url.Parse` and re-encoded with `Query().Encode()` (assuming the
serve address contains no `?`, as a scheme://host[/base] string does not). -/
def pageLink (sshpb cName : String) (page limit : Nat) : String :=
  sshpb ++ "/collections/" ++ cName ++ "/items?" ++
    encodeQuery [("page", toString page), ("limit", toString limit)]

/-! ## Query parameter parsing (`strconv`, `collectionData` steps) -/

/-- `strings.Split` with a one-character separator (the handler only splits on
`","` and `"/"`): `""` gives `[""]`, separators at the ends give empty parts. -/
def splitCharAux (sep : Char) : List Char → List (List Char)
  | [] => [[]]
  | ch :: rest =>
    let r := splitCharAux sep rest
    if ch = sep then [] :: r
    else
      match r with
      | h :: t => (ch :: h) :: t
      | [] => [[ch]]

def splitChar (sep : Char) (s : String) : List String :=
  (splitCharAux sep s.data).map (fun l => ⟨l⟩)

/-- `strconv.ParseUint(s, 10, 64)`: digits only, no sign, result below `2^64`.
The error strings are those of `*strconv.NumError` as `err.Error()` prints
them. -/
def parseUint64 (s : String) : Except String Nat :=
  if s = "" ∨ ¬ s.data.all Char.isDigit then
    .error ("strconv.ParseUint: parsing \"" ++ s ++ "\": invalid syntax")
  else
    let v := s.data.foldl (fun acc c => acc * 10 + (c.toNat - 48)) 0
    if v ≥ U64 then .error ("strconv.ParseUint: parsing \"" ++ s ++ "\": value out of range")
    else .ok v

/-- `strconv.Atoi` (64-bit int): optional sign, digits, result in
`[-2^63, 2^63)`. -/
def parseAtoi (s : String) : Except String Int :=
  let (neg, digits) :=
    match s.data with
    | '-' :: rest => (true, rest)
    | '+' :: rest => (false, rest)
    | l => (false, l)
  if digits = [] ∨ ¬ digits.all Char.isDigit then
    .error ("strconv.Atoi: parsing \"" ++ s ++ "\": invalid syntax")
  else
    let v : Int := digits.foldl (fun acc c => acc * 10 + ((c.toNat : Int) - 48)) 0
    let v := if neg then -v else v
    if v < -(2 ^ 63 : Int) ∨ (2 ^ 63 : Int) ≤ v then
      .error ("strconv.Atoi: parsing \"" ++ s ++ "\": value out of range")
    else .ok v

/-! ## The `collectionData` handler (`server/handlers.go`)

The handler is split into its parameter-parsing steps, each returning either
the parsed value or the error `Response` the handler writes, followed by the
data fetch and the response assembly.  The split mirrors the sequential
early-return structure of the Go function. -/

/-- Parsing of `{feature_id}`.  On a malformed id the Go code calls
`jsonError(..., 400)` and (missing a `return`) falls through with `fid = 0`;
since `net/http` ignores the second `WriteHeader`, the observable status and
first body object are those of this 400 error, which the embedding returns
directly.  A parsed id is converted `uint64(cid)` (two's-complement wrap). -/
def parseFid (fidStr : String) : Except Response (Option Nat) :=
  if fidStr = "" then .ok none
  else
    match parseAtoi fidStr with
    | .error _ =>
      .error (jsonError none "InvalidParameterValue" ("Invalid feature_id: " ++ fidStr)
        HTTPStatusClientError)
    | .ok cid => .ok (some ((cid % (U64 : Int)).toNat))

/-- The `limit` parameter: absent or repeated means the default; otherwise
`ParseUint` (failure is a 400), clamped down to `maxLimit`
(`config.Configuration.Server.MaxLimit`). -/
def parseLimit (q : List (String × List String)) (maxLimit : Nat) :
    Except Response Nat :=
  match qGet q "limit" with
  | [s] =>
    match parseUint64 s with
    | .error msg => .error (jsonError none "NoApplicableCode" msg HTTPStatusClientError)
    | .ok ps => .ok (if ps > maxLimit then maxLimit else ps)
  | _ => .ok DEFAULT_RESULT_LIMIT

/-- The `page` parameter: absent or repeated means `0`; otherwise `ParseUint`
(failure is a 400). -/
def parsePage (q : List (String × List String)) : Except Response Nat :=
  match qGet q "page" with
  | [s] =>
    match parseUint64 s with
    | .error msg => .error (jsonError none "NoApplicableCode" msg HTTPStatusClientError)
    | .ok pn => .ok pn
  | _ => .ok 0

/-- First bbox component (1-based index reported) failing the float parse. -/
def findBadBBoxItem (pf : String → Bool) : List String → Nat → Option (Nat × String)
  | [], _ => none
  | p :: rest, i => if pf p then findBadBBoxItem pf rest (i + 1) else some (i, p)

/-- The `bbox` parameter: absent means none; repeated is a 400; otherwise
split on commas into exactly 4 components, each accepted by
`strconv.ParseFloat` (modelled by the oracle `pf`).  The parsed floats only
flow into the provider query, so the components are kept as strings. -/
def parseBBoxStep (q : List (String × List String)) (pf : String → Bool) :
    Except Response (Option (List String)) :=
  match qGet q "bbox" with
  | [] => .ok none
  | [b] =>
    let items := splitChar ',' b
    if items.length ≠ 4 then
      let n := items.length
      .error (jsonError none "InvalidParameterValue"
        ("'bbox' parameter has " ++ toString n ++ " items, expecting 4: '" ++ b ++ "'")
        HTTPStatusClientError)
    else
      match findBadBBoxItem pf items 1 with
      | some (i, p) =>
        .error (jsonError none "InvalidParameterValue"
          ("'bbox' parameter has invalid format for item " ++ toString i ++ "/4: '"
            ++ p ++ "' / '" ++ b ++ "'")
          HTTPStatusClientError)
      | none => .ok (some items)
  | _ =>
    .error (jsonError none "InvalidParameterValue"
      "'bbox' parameter provided more than once" HTTPStatusClientError)

/-- The `time` parameter: absent means no time properties; repeated is a 400;
otherwise split on `/` into one instant or a start/stop pair; more is a 400. -/
def parseTimeStep (q : List (String × List String)) :
    Except Response (List (String × String)) :=
  match qGet q "time" with
  | [] => .ok []
  | [t] =>
    match splitChar '/' t with
    | [ts] => .ok [("timestamp", ts)]
    | [t1, t2] => .ok [("start_time", t1), ("stop_time", t2)]
    | _ =>
      .error (jsonError none "InvalidParameterValue"
        "'time' parameter contains more than two time values ('/' separator)"
        HTTPStatusClientError)
  | _ =>
    .error (jsonError none "InvalidParameterValue"
      "'time' parameter provided more than once'" HTTPStatusClientError)

def reservedQParams : List String := ["f", "page", "limit", "time", "bbox"]

/-- The free-form property filters: every non-reserved query key maps to its
first value, then the time properties are added (later entries shadow, as the
Go map assignment overwrites). -/
def collectProperties (q : List (String × List String))
    (timeprops : List (String × String)) : List (String × String) :=
  (q.filterMap (fun kv =>
    if reservedQParams.contains kv.1 then none
    else match kv.2 with
      | v :: _ => some (kv.1, v)
      | [] => none)) ++ timeprops

/-- The error switch after the data fetch: a `BadTimeString` is the caller's
fault (400, message verbatim); anything else is a 500 with the message
wrapped. -/
def dataError (e : ProvErr) : Response :=
  match e with
  | .badTimeString m => jsonError none "InvalidParameterValue" m HTTPStatusClientError
  | .other m =>
    jsonError none "InvalidParameterValue" ("Problem collecting feature data: " ++ m)
      HTTPStatusServerError

/-- The `ETag`-then-HEAD short-circuit: the `ETag` header is set, then a HEAD
request is answered 304 (matching client `ETag`) or 200, with no body. -/
def headResponse (clientETag contentId : String) : Response :=
  { status := if clientETag = contentId then HTTPStatusNotModified else HTTPStatusOk,
    etag := some contentId, body := .empty }

/-- `switch ct` producing the alternate content types for links. -/
def altContentTypes (ct : String) : List String :=
  if ct = JSONContentType then [HTMLContentType]
  else if ct = HTMLContentType then [JSONContentType]
  else []

/-- The single-feature response: HEAD short-circuit, else self/alternate links
in `SupportedContentTypes` order (rel `self` exactly at the negotiated type),
then the `collection` link, appended to the envelope's links. -/
def respondFeature (r : Request) (sshpb ct cName : String) (fid : Nat)
    (f : Feature) (contentId : String) : Response :=
  if r.method = HTTPMethodHEAD then headResponse r.etagHeader contentId
  else
    let shref := sshpb ++ "/collections/" ++ cName ++ "/items/" ++ toString fid
    let ctlinks : List Link := SupportedContentTypes.map (fun sct =>
      { rel := if sct = ct then "self" else "alternate",
        href := ctLink shref [] sct, type := sct })
    let chref := sshpb ++ "/collections/" ++ cName
    let links := ctlinks ++ [{ rel := "collection", href := ctLink chref [] ct, type := ct }]
    let f := { f with links := f.links ++ links }
    { status := HTTPStatusOk, etag := some contentId, contentTypeHeader := some ct,
      body := .feature f }

/-- The feature-collection response: HEAD short-circuit, else self and
alternate links re-encoding page and limit, a `prev` link when `page > 0`, a
`next` link when `featureTotal > limit*(page+1)` (uint arithmetic), then the
pagination counts.  Schema validation of the JSON body is modelled from the
spec as succeeding (the validator is outside the analysed sources; the spec
has round-trip validation of constructed envelopes always succeed). -/
def respondFC (r : Request) (sshpb ct cName : String) (c : FeatureCollection)
    (featureTotal : Nat) (contentId : String) (limit pageNum : Nat) : Response :=
  if r.method = HTTPMethodHEAD then headResponse r.etagHeader contentId
  else
    let selfPath := sshpb ++ "/collections/" ++ cName ++ "/items"
    let selfQuery := [("page", toString pageNum), ("limit", toString limit)]
    let prev := if pageNum > 0 then pageLink sshpb cName (pageNum - 1) limit else ""
    let next := if featureTotal > limit * ((pageNum + 1) % U64) % U64 then
        pageLink sshpb cName ((pageNum + 1) % U64) limit
      else ""
    let altcts := altContentTypes ct
    let links : List Link :=
      ({ rel := "self", href := ctLink selfPath selfQuery ct, type := ct } : Link) ::
        altcts.map (fun act =>
          { rel := "alternate", href := ctLink selfPath selfQuery act, type := act })
    let links := if prev ≠ "" then links ++ [{ rel := "prev", href := prev, type := ct }] else links
    let links := if next ≠ "" then links ++ [{ rel := "next", href := next, type := ct }] else links
    let c := { c with links := c.links ++ links,
                      numberMatched := featureTotal,
                      numberReturned := c.features.length }
    { status := HTTPStatusOk, etag := some contentId, contentTypeHeader := some ct,
      body := .fc c }

/-- `server/handlers.go` `collectionData`: parameter parsing with early error
returns, the data fetch (single feature when `{feature_id}` is present,
otherwise the paged feature collection with `startIdx = limit*page` and
`stopIdx = startIdx+limit` in uint arithmetic), the error switch, and the
response assembly.  `prov` is the provider's reply for this request's
collection/filters. -/
def collectionData (r : Request) (sshpb : String) (maxLimit : Nat)
    (pf : String → Bool) (prov : Except ProvErr (List ProviderFeature)) : Response :=
  let ct := contentType r
  match parseFid r.featureIdParam with
  | .error resp => resp
  | .ok fid? =>
  match parseLimit r.query maxLimit with
  | .error resp => resp
  | .ok limit =>
  match parsePage r.query with
  | .error resp => resp
  | .ok pageNum =>
  match parseBBoxStep r.query pf with
  | .error resp => resp
  | .ok _bbox =>
  match parseTimeStep r.query with
  | .error resp => resp
  | .ok timeprops =>
  let _properties := collectProperties r.query timeprops
  match fid? with
  | some fid =>
    match FeatureData r.nameParam fid prov with
    | .error e => dataError e
    | .ok (f, contentId) => respondFeature r sshpb ct r.nameParam fid f contentId
  | none =>
    let startIdx := limit * pageNum % U64
    let stopIdx := (startIdx + limit) % U64
    match FeatureCollectionData r.nameParam prov startIdx stopIdx with
    | .error e => dataError e
    | .ok (c, featureTotal, contentId) =>
      respondFC r sshpb ct r.nameParam c featureTotal contentId limit pageNum

/-- `server/handlers.go` `collectionMetaData`: 400 on an empty `{name}`, 500
when the wfs3 layer rejects the name (unknown collection) or the provider
fails, otherwise self/alternate/item links are prepended, the `ETag` set, and
HEAD short-circuited. -/
def collectionMetaDataHandler (r : Request) (sshpb : String)
    (cNames : Except String (List String)) : Response :=
  let ct := contentType r
  let cName := r.nameParam
  if cName = "" then
    jsonError none "MissingParameterValue" "No \x7bname\x7d provided" HTTPStatusClientError
  else
    match CollectionMetaData cName cNames sshpb with
    | .error e => jsonError none "NoApplicableCode" e HTTPStatusServerError
    | .ok (md, contentId) =>
      let collectionMdUrlBase := sshpb ++ "/collections/" ++ cName
      let collectionDataUrlBase := sshpb ++ "/collections/" ++ cName ++ "/items"
      let altcts := altContentTypes ct
      let plinks : List Link :=
        ({ rel := "self", href := ctLink collectionMdUrlBase [] ct, type := ct } : Link) ::
          (altcts.map (fun act =>
            ({ rel := "alternate", href := ctLink collectionMdUrlBase [] act,
               type := act } : Link))
          ++ [{ rel := "item", href := ctLink collectionDataUrlBase [] ct, type := ct }]
          ++ altcts.map (fun act =>
            ({ rel := "item", href := ctLink collectionDataUrlBase [] act,
               type := act } : Link)))
      let md := { md with links := plinks ++ md.links }
      if r.method = HTTPMethodHEAD then headResponse r.etagHeader contentId
      else
        { status := HTTPStatusOk, etag := some contentId, contentTypeHeader := some ct,
          body := .collection md }

/-! ## Extraction helpers for stating properties of responses -/

/-- The links of a feature-collection response body (`[]` for other bodies). -/
def fcLinks (resp : Response) : List Link :=
  match resp.body with
  | .fc c => c.links
  | _ => []

/-- The links of a single-feature response body (`[]` for other bodies). -/
def featLinks (resp : Response) : List Link :=
  match resp.body with
  | .feature f => f.links
  | _ => []

/-! ## Test fixtures

Concrete requests and provider replies used by the witnesses and
counterexamples below; they mirror the repository's own test cases. -/

/-- A request fixture mirroring the repository's happy-path test:
`GET /collections/aviation_polygons/items?page=1&limit=3`. -/
def w1req : Request :=
  { method := "GET", nameParam := "aviation_polygons",
    query := [("page", ["1"]), ("limit", ["3"])] }

/-- Eight provider features, as the test collection matches. -/
def w1feats : List ProviderFeature := (List.range 8).map (fun i => { id := i + 1 })

/-- A fixture for C4: a HEAD request whose client `ETag` equals the computed
fingerprint of `aviation_polygons`. -/
def c4req : Request :=
  { method := "HEAD", nameParam := "aviation_polygons",
    etagHeader := fnvHex "aviation_polygons",
    query := [("page", ["1"]), ("limit", ["3"])] }

/-- A fixture for the C4 witness: a HEAD request with a non-matching client
`ETag`. -/
def c4wreq : Request :=
  { method := "HEAD", nameParam := "aviation_polygons", etagHeader := "deadbeef",
    query := [("page", ["1"]), ("limit", ["3"])] }

/-- A fixture for C6: an items request with an active property filter
(`aeroway=helipad`) alongside page and limit. -/
def c6req : Request :=
  { method := "GET", nameParam := "aviation_polygons",
    query := [("page", ["1"]), ("limit", ["3"]), ("aeroway", ["helipad"])] }

/-- C7 witness fixtures: two items requests for the same collection that
differ in method, page, limit, bbox, property filters, serve address, limit
cap and provider reply. -/
def c7reqA : Request :=
  { method := "GET", nameParam := "aviation_polygons",
    query := [("page", ["0"]), ("limit", ["2"])] }

def c7reqB : Request :=
  { method := "HEAD", nameParam := "aviation_polygons",
    query := [("page", ["1"]), ("limit", ["5"]), ("bbox", ["1,2,3,4"]),
              ("aeroway", ["helipad"])] }

/-- A fixture for C8: a GET for a single feature negotiated to HTML. -/
def c8req : Request :=
  { method := "GET", nameParam := "roads_lines", featureIdParam := "18",
    query := [("f", ["text/html"])] }

/-- A fixture for the C8 witness: the JSON single-feature request of the
repository's own test (`/collections/roads_lines/items/18`). -/
def c8wreq : Request :=
  { method := "GET", nameParam := "roads_lines", featureIdParam := "18" }

/-! ## Helper lemmas -/

theorem parseUint64_lt {s : String} {v : Nat} (h : parseUint64 s = .ok v) : v < U64 := by
  unfold parseUint64 at h
  split at h
  · exact absurd h (by simp)
  · dsimp only at h
    split at h
    · exact absurd h (by simp)
    · simp only [Except.ok.injEq] at h
      omega

theorem parseLimit_lt {q : List (String × List String)} {maxLimit limit : Nat}
    (h : parseLimit q maxLimit = .ok limit) : limit < U64 := by
  unfold parseLimit at h
  split at h
  · rename_i s _
    split at h
    · exact absurd h (by simp)
    · rename_i ps hps
      simp only [Except.ok.injEq] at h
      have := parseUint64_lt hps
      subst h
      split <;> omega
  · simp only [Except.ok.injEq] at h
    subst h
    decide

theorem parsePage_lt {q : List (String × List String)} {pageNum : Nat}
    (h : parsePage q = .ok pageNum) : pageNum < U64 := by
  unfold parsePage at h
  split at h
  · rename_i s _
    split at h
    · exact absurd h (by simp)
    · rename_i pn hpn
      simp only [Except.ok.injEq] at h
      subst h
      exact parseUint64_lt hpn
  · simp only [Except.ok.injEq] at h
    subst h
    decide

theorem jsonError_etag (etag : Option String) (code msg : String) (status : Nat) :
    (jsonError etag code msg status).etag = etag := rfl

theorem dataError_etag (e : ProvErr) : (dataError e).etag = none := by
  unfold dataError
  cases e <;> rfl

/-- On a successful `FeatureCollectionData` call the content id is the hash of
the collection name and the feature total is the full matched count. -/
theorem FCD_ok_parts {cName : String} {cfs : List ProviderFeature}
    {startIdx stopIdx : Nat} {c : FeatureCollection} {n : Nat} {cid : String}
    (h : FeatureCollectionData cName (.ok cfs) startIdx stopIdx = .ok (c, n, cid)) :
    cid = fnvHex cName ∧ n = cfs.length := by
  unfold FeatureCollectionData at h
  dsimp only at h
  split at h
  · split at h
    · exact absurd h (by simp)
    · simp only [Except.ok.injEq, Prod.mk.injEq] at h
      exact ⟨h.2.2.symm, h.2.1.symm⟩
  · split at h
    · exact absurd h (by simp)
    · simp only [Except.ok.injEq, Prod.mk.injEq] at h
      exact ⟨h.2.2.symm, h.2.1.symm⟩

/-- On a successful `FeatureData` call the content id hashes name ++ id. -/
theorem FD_ok_contentId {cname : String} {fid : Nat} {pfs : List ProviderFeature}
    {f : Feature} {cid : String}
    (h : FeatureData cname fid (.ok pfs) = .ok (f, cid)) :
    cid = fnvHex (cname ++ toString fid) := by
  unfold FeatureData at h
  dsimp only at h
  split at h
  · simp only [Except.ok.injEq, Prod.mk.injEq] at h
    exact h.2.symm
  · exact absurd h (by simp)

/-- No `uint` wrap occurs in the pagination arithmetic of a request whose
window is inside a Go-slice-sized total. -/
theorem pagination_no_wrap {limit pageNum len : Nat}
    (hlim : limit < U64) (hwin : limit * pageNum < len) (hlen : len < 2 ^ 63) :
    limit * pageNum % U64 = limit * pageNum ∧
    (limit * pageNum + limit) % U64 = limit * pageNum + limit ∧
    limit * ((pageNum + 1) % U64) % U64 = limit * (pageNum + 1) := by
  have hU : U64 = 2 ^ 64 := rfl
  have hsum : limit * pageNum + limit < U64 := by
    rcases Nat.eq_zero_or_pos pageNum with h0 | hpos
    · subst h0
      simp only [Nat.mul_zero]
      omega
    · have hle : limit ≤ limit * pageNum := Nat.le_mul_of_pos_right limit hpos
      omega
  refine ⟨Nat.mod_eq_of_lt (by omega), Nat.mod_eq_of_lt (by omega), ?_⟩
  rcases Nat.lt_or_ge (pageNum + 1) U64 with hp1 | hp1
  · rw [Nat.mod_eq_of_lt hp1, Nat.mul_succ]
    exact Nat.mod_eq_of_lt (by omega)
  · rcases Nat.eq_zero_or_pos limit with hl0 | hlpos
    · subst hl0
      simp
    · exfalso
      have hpn : 1 ≤ pageNum := by omega
      have : pageNum ≤ limit * pageNum := Nat.le_mul_of_pos_left pageNum hlpos
      omega

/-- With `{feature_id}` absent and all query parameters parsing, the handler
reduces to the feature-collection fetch and response. -/
theorem collectionData_fc_eq
    {r : Request} {sshpb : String} {maxLimit : Nat} {pf : String → Bool}
    {prov : Except ProvErr (List ProviderFeature)} {limit pageNum : Nat}
    {bb : Option (List String)} {tp : List (String × String)}
    (hfid : r.featureIdParam = "")
    (hl : parseLimit r.query maxLimit = .ok limit)
    (hp : parsePage r.query = .ok pageNum)
    (hb : parseBBoxStep r.query pf = .ok bb)
    (ht : parseTimeStep r.query = .ok tp) :
    collectionData r sshpb maxLimit pf prov =
      match FeatureCollectionData r.nameParam prov (limit * pageNum % U64)
          ((limit * pageNum % U64 + limit) % U64) with
      | .error e => dataError e
      | .ok (c, featureTotal, contentId) =>
        respondFC r sshpb (contentType r) r.nameParam c featureTotal contentId limit pageNum := by
  unfold collectionData
  rw [hfid]
  have hf : parseFid "" = .ok none := rfl
  rw [hf, hl, hp, hb, ht]

/-- Success form: a valid window (`limit*page < totalMatched`, total within a
Go slice) makes the fetch succeed with the `[startIdx, stopIdx)` slice. -/
theorem collectionData_fc_success
    {r : Request} {sshpb : String} {maxLimit : Nat} {pf : String → Bool}
    {cfs : List ProviderFeature} {limit pageNum : Nat}
    {bb : Option (List String)} {tp : List (String × String)}
    (hfid : r.featureIdParam = "")
    (hl : parseLimit r.query maxLimit = .ok limit)
    (hp : parsePage r.query = .ok pageNum)
    (hb : parseBBoxStep r.query pf = .ok bb)
    (ht : parseTimeStep r.query = .ok tp)
    (hlen : cfs.length < 2 ^ 63)
    (hwin : limit * pageNum < cfs.length) :
    collectionData r sshpb maxLimit pf (.ok cfs) =
      respondFC r sshpb (contentType r) r.nameParam
        { features := ((cfs.drop (limit * pageNum)).take
            (min (limit * pageNum + limit) cfs.length - limit * pageNum)).map toGeojsonFeature }
        cfs.length (fnvHex r.nameParam) limit pageNum := by
  rw [collectionData_fc_eq hfid hl hp hb ht]
  obtain ⟨h1, h2, -⟩ := pagination_no_wrap (parseLimit_lt hl) hwin hlen
  rw [h1, h2]
  unfold FeatureCollectionData
  dsimp only
  have hcond : ¬ (limit * pageNum ≥ cfs.length ∨
      (if limit * pageNum + limit > cfs.length then cfs.length else limit * pageNum + limit)
        < limit * pageNum) := by
    split <;> omega
  rw [if_neg hcond]
  have hstop : (if limit * pageNum + limit > cfs.length then cfs.length
      else limit * pageNum + limit) = min (limit * pageNum + limit) cfs.length := by
    split <;> omega
  rw [hstop]

theorem pageLink_ne_empty (sshpb cName : String) (page limit : Nat) :
    pageLink sshpb cName page limit ≠ "" := by
  unfold pageLink
  intro h
  have hlen := congrArg String.length h
  simp only [String.length_append] at hlen
  have h13 : ("/collections/" : String).length = 13 := rfl
  have h7 : ("/items?" : String).length = 7 := rfl
  have h0 : ("" : String).length = 0 := rfl
  omega

/-- The link list of a GET feature-collection response, in construction
order: self, alternates, then `prev` (iff `page > 0`) and `next` (iff the
uint-arithmetic condition holds). -/
theorem respondFC_links
    {r : Request} {sshpb ct cName : String} {c : FeatureCollection}
    {featureTotal : Nat} {contentId : String} {limit pageNum : Nat}
    (hm : r.method ≠ HTTPMethodHEAD) (hcl : c.links = []) :
    fcLinks (respondFC r sshpb ct cName c featureTotal contentId limit pageNum) =
      ({ rel := "self",
         href := ctLink (sshpb ++ "/collections/" ++ cName ++ "/items")
           [("page", toString pageNum), ("limit", toString limit)] ct, type := ct } : Link) ::
        (altContentTypes ct).map (fun act =>
          { rel := "alternate",
            href := ctLink (sshpb ++ "/collections/" ++ cName ++ "/items")
              [("page", toString pageNum), ("limit", toString limit)] act, type := act })
        ++ (if 0 < pageNum then
              [{ rel := "prev", href := pageLink sshpb cName (pageNum - 1) limit, type := ct }]
            else [])
        ++ (if featureTotal > limit * ((pageNum + 1) % U64) % U64 then
              [{ rel := "next", href := pageLink sshpb cName ((pageNum + 1) % U64) limit,
                 type := ct }]
            else []) := by
  unfold respondFC fcLinks
  rw [if_neg hm]
  dsimp only
  rw [hcl]
  have hne : ∀ p l, (pageLink sshpb cName p l ≠ "") = True := fun p l => by
    simp [pageLink_ne_empty sshpb cName p l]
  have hee : (("" : String) ≠ "") = False := by simp
  by_cases hpg : pageNum > 0
  · have hprev : (if pageNum > 0 then pageLink sshpb cName (pageNum - 1) limit else "")
        = pageLink sshpb cName (pageNum - 1) limit := if_pos hpg
    by_cases hnx : featureTotal > limit * ((pageNum + 1) % U64) % U64
    · have hnext : (if featureTotal > limit * ((pageNum + 1) % U64) % U64 then
          pageLink sshpb cName ((pageNum + 1) % U64) limit else "")
          = pageLink sshpb cName ((pageNum + 1) % U64) limit := if_pos hnx
      simp only [hprev, hnext, hne, if_true, if_pos hpg, if_pos hnx]
      simp [List.append_assoc]
    · have hnext : (if featureTotal > limit * ((pageNum + 1) % U64) % U64 then
          pageLink sshpb cName ((pageNum + 1) % U64) limit else "") = "" := if_neg hnx
      simp only [hprev, hnext, hne, hee, if_true, if_false, if_pos hpg, if_neg hnx]
      simp [List.append_assoc]
  · have hprev : (if pageNum > 0 then pageLink sshpb cName (pageNum - 1) limit else "")
        = "" := if_neg hpg
    by_cases hnx : featureTotal > limit * ((pageNum + 1) % U64) % U64
    · have hnext : (if featureTotal > limit * ((pageNum + 1) % U64) % U64 then
          pageLink sshpb cName ((pageNum + 1) % U64) limit else "")
          = pageLink sshpb cName ((pageNum + 1) % U64) limit := if_pos hnx
      simp only [hprev, hnext, hne, hee, if_true, if_false, if_neg hpg, if_pos hnx]
      simp [List.append_assoc]
    · have hnext : (if featureTotal > limit * ((pageNum + 1) % U64) % U64 then
          pageLink sshpb cName ((pageNum + 1) % U64) limit else "") = "" := if_neg hnx
      simp only [hprev, hnext, hee, if_false, if_neg hpg, if_neg hnx]
      simp [List.append_assoc]

/-! ## Claim theorems -/

/-- C1: for every GET `/collections/{name}/items` request whose parameters
parse and whose pagination window is valid (`limit*page < totalMatched`), the
returned feature collection has `numberMatched = totalMatched`,
`numberReturned = min(limit, totalMatched - limit*page)`, and
`numberReturned` equals the number of features in the response. -/
theorem C1_pagination_counts
    {r : Request} {sshpb : String} {maxLimit : Nat} {pf : String → Bool}
    {cfs : List ProviderFeature} {limit pageNum : Nat}
    {bb : Option (List String)} {tp : List (String × String)}
    (hm : r.method = HTTPMethodGET)
    (hfid : r.featureIdParam = "")
    (hl : parseLimit r.query maxLimit = .ok limit)
    (hp : parsePage r.query = .ok pageNum)
    (hb : parseBBoxStep r.query pf = .ok bb)
    (ht : parseTimeStep r.query = .ok tp)
    (hlen : cfs.length < 2 ^ 63)
    (hwin : limit * pageNum < cfs.length) :
    ∃ c, (collectionData r sshpb maxLimit pf (.ok cfs)).body = .fc c ∧
      c.numberMatched = cfs.length ∧
      c.numberReturned = min limit (cfs.length - limit * pageNum) ∧
      c.numberReturned = c.features.length := by
  rw [collectionData_fc_success hfid hl hp hb ht hlen hwin]
  unfold respondFC
  rw [if_neg (by rw [hm]; decide)]
  dsimp only
  refine ⟨_, rfl, rfl, ?_, rfl⟩
  simp only [List.length_map, List.length_take, List.length_drop]
  omega

/-- C1 witness: the spec's own example, `page=1&limit=3` against 8 matched
features, yields `numberMatched = 8`, `numberReturned = 3`. -/
theorem C1_pagination_counts_witness :
    ∃ c, (collectionData w1req "http://test.com" 100 (fun _ => true)
        (.ok w1feats)).body = .fc c ∧
      c.numberMatched = w1feats.length ∧
      c.numberReturned = min 3 (w1feats.length - 3 * 1) ∧
      c.numberReturned = c.features.length :=
  @C1_pagination_counts w1req "http://test.com" 100 (fun _ => true) w1feats 3 1 none []
    rfl rfl rfl rfl rfl rfl (by decide) (by decide)

/-- Presence of `prev`/`next` links in a list made of self/alternate links
followed by a conditional `prev` and a conditional `next` entry. -/
theorem prevnext_mem {base : List Link} {p n : Link} (cp cn : Prop)
    [Decidable cp] [Decidable cn]
    (hbase : ∀ l ∈ base, l.rel = "self" ∨ l.rel = "alternate")
    (hp : p.rel = "prev") (hn : n.rel = "next") :
    ((∃ l ∈ (base ++ (if cp then [p] else [])) ++ (if cn then [n] else []),
        l.rel = "prev") ↔ cp) ∧
    ((∃ l ∈ (base ++ (if cp then [p] else [])) ++ (if cn then [n] else []),
        l.rel = "next") ↔ cn) := by
  constructor
  · constructor
    · rintro ⟨l, hlmem, hrel⟩
      rcases List.mem_append.mp hlmem with h | h
      · rcases List.mem_append.mp h with h | h
        · rcases hbase l h with hb | hb <;> rw [hrel] at hb <;> exact absurd hb (by decide)
        · by_cases hcp : cp
          · exact hcp
          · rw [if_neg hcp] at h
            exact absurd h (List.not_mem_nil l)
      · by_cases hcn : cn
        · rw [if_pos hcn] at h
          rw [List.mem_singleton.mp h, hn] at hrel
          exact absurd hrel (by decide)
        · rw [if_neg hcn] at h
          exact absurd h (List.not_mem_nil l)
    · intro hcp
      exact ⟨p, by simp [if_pos hcp], hp⟩
  · constructor
    · rintro ⟨l, hlmem, hrel⟩
      rcases List.mem_append.mp hlmem with h | h
      · rcases List.mem_append.mp h with h | h
        · rcases hbase l h with hb | hb <;> rw [hrel] at hb <;> exact absurd hb (by decide)
        · by_cases hcp : cp
          · rw [if_pos hcp] at h
            rw [List.mem_singleton.mp h, hp] at hrel
            exact absurd hrel (by decide)
          · rw [if_neg hcp] at h
            exact absurd h (List.not_mem_nil l)
      · by_cases hcn : cn
        · exact hcn
        · rw [if_neg hcn] at h
          exact absurd h (List.not_mem_nil l)
    · intro hcn
      exact ⟨n, by simp [if_pos hcn], hn⟩

/-- C2: for every successful GET `/collections/{name}/items` response, a
`prev` link is present iff `page > 0`, and a `next` link is present iff
`totalMatched > limit*(page+1)`. -/
theorem C2_prev_next_links
    {r : Request} {sshpb : String} {maxLimit : Nat} {pf : String → Bool}
    {cfs : List ProviderFeature} {limit pageNum : Nat}
    {bb : Option (List String)} {tp : List (String × String)} {c : FeatureCollection}
    (hm : r.method = HTTPMethodGET)
    (hfid : r.featureIdParam = "")
    (hl : parseLimit r.query maxLimit = .ok limit)
    (hp : parsePage r.query = .ok pageNum)
    (hb : parseBBoxStep r.query pf = .ok bb)
    (ht : parseTimeStep r.query = .ok tp)
    (hlen : cfs.length < 2 ^ 63)
    (hwin : limit * pageNum < cfs.length)
    (hbody : (collectionData r sshpb maxLimit pf (.ok cfs)).body = .fc c) :
    ((∃ l ∈ c.links, l.rel = "prev") ↔ 0 < pageNum) ∧
    ((∃ l ∈ c.links, l.rel = "next") ↔ cfs.length > limit * (pageNum + 1)) := by
  have hm' : r.method ≠ HTTPMethodHEAD := by rw [hm]; decide
  have key := @collectionData_fc_success r sshpb maxLimit pf cfs limit pageNum bb tp
    hfid hl hp hb ht hlen hwin
  have hclinks : c.links = fcLinks (collectionData r sshpb maxLimit pf (.ok cfs)) := by
    unfold fcLinks
    rw [hbody]
  rw [key, respondFC_links hm' rfl] at hclinks
  obtain ⟨-, -, h3⟩ := pagination_no_wrap (parseLimit_lt hl) hwin hlen
  rw [h3] at hclinks
  rw [hclinks]
  refine prevnext_mem (0 < pageNum) (cfs.length > limit * (pageNum + 1)) ?_ rfl rfl
  intro l hl'
  rcases List.mem_cons.mp hl' with h | h
  · left
    rw [h]
  · obtain ⟨a, -, h⟩ := List.mem_map.mp h
    right
    rw [← h]

/-- C2 witness: with `page=1&limit=3` and 8 matched features, both `prev` and
`next` links are present (`0 < 1` and `8 > 3*2`). -/
theorem C2_prev_next_links_witness :
    (0 : Nat) < 1 ∧ w1feats.length > 3 * (1 + 1) ∧
    ∃ c, (collectionData w1req "http://test.com" 100 (fun _ => true)
        (.ok w1feats)).body = .fc c ∧
      ((∃ l ∈ c.links, l.rel = "prev") ↔ (0 : Nat) < 1) ∧
      ((∃ l ∈ c.links, l.rel = "next") ↔ w1feats.length > 3 * (1 + 1)) := by
  refine ⟨by decide, by decide, ?_⟩
  obtain ⟨c, hc⟩ : ∃ c, (collectionData w1req "http://test.com" 100 (fun _ => true)
      (.ok w1feats)).body = .fc c := by
    rw [@collectionData_fc_success w1req "http://test.com" 100 (fun _ => true)
      w1feats 3 1 none [] rfl rfl rfl rfl rfl (by decide) (by decide)]
    unfold respondFC
    rw [if_neg (by decide)]
    exact ⟨_, rfl⟩
  exact ⟨c, hc, @C2_prev_next_links w1req "http://test.com" 100 (fun _ => true)
    w1feats 3 1 none [] c rfl rfl rfl rfl rfl rfl (by decide) (by decide) hc⟩

/-- C3 counterexample: with an empty matched set (`totalMatched = 0`) and
`page = 0` (so `startIndex = 0`, `stopIndex = min(0 + 10, 0) = 0`), the claim
says the request does not fail — its failure condition
`(startIndex ≥ totalMatched ∧ totalMatched > 0) ∨ stopIndex < startIndex`
is false here — yet the code rejects the window with the out-of-range error. -/
theorem C3_counterexample :
    FeatureCollectionData "empty_pols" (.ok []) 0 (0 + 10) =
      .error (.other "Invalid start/stop indices [0, 10] for collection of length 0") ∧
    ¬ ((0 ≥ (List.length ([] : List ProviderFeature)) ∧
        0 < List.length ([] : List ProviderFeature)) ∨
       min (0 + 10) (List.length ([] : List ProviderFeature)) < 0) := by
  constructor
  · rfl
  · decide

/-- C3 amended: the fetch fails with the out-of-range error naming the
requested window and the actual total exactly when
`startIdx ≥ totalMatched ∨ min stopIdx totalMatched < startIdx` — with no
`totalMatched > 0` exception, so a `page = 0` request against an empty
matched set also fails. -/
theorem C3_amended_window_error (cName : String) (cfs : List ProviderFeature)
    (startIdx stopIdx : Nat) :
    (FeatureCollectionData cName (.ok cfs) startIdx stopIdx =
        .error (.other ("Invalid start/stop indices [" ++ toString startIdx ++ ", "
          ++ toString stopIdx ++ "] for collection of length " ++ toString cfs.length)))
      ↔ (startIdx ≥ cfs.length ∨ min stopIdx cfs.length < startIdx) := by
  unfold FeatureCollectionData
  dsimp only
  have hstop : (if stopIdx > cfs.length then cfs.length else stopIdx)
      = min stopIdx cfs.length := by
    split <;> omega
  rw [hstop]
  by_cases h : startIdx ≥ cfs.length ∨ min stopIdx cfs.length < startIdx
  · rw [if_pos h]
    exact iff_of_true rfl h
  · rw [if_neg h]
    exact iff_of_false (by simp) h

/-- C5 counterexample: with an unsupported `f` (`application/vnd.mapbox-vector-tile`)
and a supported `Content-Type: text/html` header, the claim predicts the
header's type (`text/html`); the code resolves to the JSON default instead,
because a present `f` overrides the header before the supported check. -/
theorem C5_counterexample :
    contentType
        { method := "GET", contentTypeHeader := "text/html",
          query := [("f", ["application/vnd.mapbox-vector-tile"])] }
      = JSONContentType ∧
    contentType
        { method := "GET", contentTypeHeader := "text/html",
          query := [("f", ["application/vnd.mapbox-vector-tile"])] }
      ≠ HTMLContentType := by
  constructor
  · rfl
  · decide

/-- The closed form of the `contentType` negotiation. -/
theorem contentType_precedence (r : Request) :
    contentType r =
      match qGet r.query "f" with
      | f0 :: _ => if supportedContentType f0 then f0 else JSONContentType
      | [] => if supportedContentType r.contentTypeHeader then r.contentTypeHeader
              else JSONContentType := by
  unfold contentType
  dsimp only
  cases hf : qGet r.query "f" with
  | nil =>
    dsimp only
    by_cases hh : supportedContentType r.contentTypeHeader
    · rw [if_pos hh, if_pos hh, if_neg (by rw [hh]; simp)]
    · rw [if_neg hh, if_neg hh, if_pos (by decide)]
  | cons f0 rest =>
    dsimp only
    by_cases hh : supportedContentType r.contentTypeHeader
    · rw [if_pos hh]
      by_cases heq : f0 ≠ r.contentTypeHeader
      · rw [if_pos heq]
        by_cases hs : supportedContentType f0
        · rw [if_neg (by rw [hs]; simp), if_pos hs]
        · rw [if_pos hs, if_neg hs]
      · rw [if_neg heq]
        rw [not_not] at heq
        subst heq
        rw [if_pos hh, if_neg (by rw [hh]; simp)]
    · rw [if_neg hh]
      by_cases heq : f0 ≠ ""
      · rw [if_pos heq]
        by_cases hs : supportedContentType f0
        · rw [if_neg (by rw [hs]; simp), if_pos hs]
        · rw [if_pos hs, if_neg hs]
      · rw [if_neg heq]
        rw [not_not] at heq
        subst heq
        rw [if_pos (by decide), if_neg (by decide)]

/-- C5 amended: the negotiated type is the first `f` value when `f` is present
and supported; the JSON default when `f` is present but unsupported (the
`Content-Type` header is not consulted in that case); otherwise the
`Content-Type` header when supported; otherwise the JSON default. -/
theorem C5_amended_precedence (r : Request) :
    contentType r =
      match qGet r.query "f" with
      | f0 :: _ => if supportedContentType f0 then f0 else JSONContentType
      | [] => if supportedContentType r.contentTypeHeader then r.contentTypeHeader
              else JSONContentType :=
  contentType_precedence r

/-- C10: a repeated `limit` query parameter is treated as absent — the default
limit 10 is used and no error is raised — and a repeated `page` parameter
falls back to page 0. -/
theorem C10_repeated_params (q : List (String × List String)) (maxLimit : Nat) :
    (∀ a b rest, qGet q "limit" = a :: b :: rest →
      parseLimit q maxLimit = .ok 10) ∧
    (∀ a b rest, qGet q "page" = a :: b :: rest →
      parsePage q = .ok 0) := by
  constructor
  · intro a b rest h
    unfold parseLimit
    rw [h]
    rfl
  · intro a b rest h
    unfold parsePage
    rw [h]

/-- C10 witness: `limit=5&limit=7&page=2&page=3` parses as limit 10 (not the
first occurrence 5) and page 0. -/
theorem C10_repeated_params_witness :
    qGet [("limit", ["5", "7"]), ("page", ["2", "3"])] "limit" = "5" :: "7" :: [] ∧
    qGet [("limit", ["5", "7"]), ("page", ["2", "3"])] "page" = "2" :: "3" :: [] ∧
    parseLimit [("limit", ["5", "7"]), ("page", ["2", "3"])] 100 = .ok 10 ∧
    parsePage [("limit", ["5", "7"]), ("page", ["2", "3"])] = .ok 0 ∧
    (10 : Nat) ≠ 5 :=
  ⟨rfl, rfl,
    (C10_repeated_params [("limit", ["5", "7"]), ("page", ["2", "3"])] 100).1
      "5" "7" [] rfl,
    (C10_repeated_params [("limit", ["5", "7"]), ("page", ["2", "3"])] 100).2
      "2" "3" [] rfl,
    by decide⟩

/-! ### Error responses of the parsing steps never carry an `ETag` -/

theorem parseFid_error_etag {s : String} {resp : Response}
    (h : parseFid s = .error resp) : resp.etag = none := by
  unfold parseFid at h
  split at h
  · exact absurd h (by simp)
  · split at h
    · simp only [Except.error.injEq] at h
      rw [← h]
      rfl
    · exact absurd h (by simp)

theorem parseLimit_error_etag {q : List (String × List String)} {maxLimit : Nat}
    {resp : Response} (h : parseLimit q maxLimit = .error resp) : resp.etag = none := by
  unfold parseLimit at h
  split at h
  · split at h
    · simp only [Except.error.injEq] at h
      rw [← h]
      rfl
    · exact absurd h (by simp)
  · exact absurd h (by simp)

theorem parsePage_error_etag {q : List (String × List String)}
    {resp : Response} (h : parsePage q = .error resp) : resp.etag = none := by
  unfold parsePage at h
  split at h
  · split at h
    · simp only [Except.error.injEq] at h
      rw [← h]
      rfl
    · exact absurd h (by simp)
  · exact absurd h (by simp)

theorem parseBBoxStep_error_etag {q : List (String × List String)} {pf : String → Bool}
    {resp : Response} (h : parseBBoxStep q pf = .error resp) : resp.etag = none := by
  unfold parseBBoxStep at h
  split at h
  · exact absurd h (by simp)
  · dsimp only at h
    split at h
    · simp only [Except.error.injEq] at h
      rw [← h]
      rfl
    · split at h
      · simp only [Except.error.injEq] at h
        rw [← h]
        rfl
      · exact absurd h (by simp)
  · simp only [Except.error.injEq] at h
    rw [← h]
    rfl

theorem parseTimeStep_error_etag {q : List (String × List String)}
    {resp : Response} (h : parseTimeStep q = .error resp) : resp.etag = none := by
  unfold parseTimeStep at h
  split at h
  · exact absurd h (by simp)
  · split at h
    · exact absurd h (by simp)
    · exact absurd h (by simp)
    · simp only [Except.error.injEq] at h
      rw [← h]
      rfl
  · simp only [Except.error.injEq] at h
    rw [← h]
    rfl

/-- The conditional-response characterization: any HEAD request whose response
carries an `ETag` (it reached the data stage) is answered with status 304 when
the client's `ETag` matches and 200 otherwise, with no body and no
`Content-Type` header. -/
theorem collectionData_head {r : Request} {sshpb : String} {maxLimit : Nat}
    {pf : String → Bool} {prov : Except ProvErr (List ProviderFeature)} {cid : String}
    (hm : r.method = HTTPMethodHEAD)
    (h : (collectionData r sshpb maxLimit pf prov).etag = some cid) :
    collectionData r sshpb maxLimit pf prov =
      { status := if r.etagHeader = cid then HTTPStatusNotModified else HTTPStatusOk,
        etag := some cid, contentTypeHeader := none, body := .empty } := by
  unfold collectionData at h ⊢
  cases hfid : parseFid r.featureIdParam with
  | error resp =>
    rw [hfid] at h
    dsimp only at h
    rw [parseFid_error_etag hfid] at h
    exact absurd h (by simp)
  | ok fid? =>
    rw [hfid] at h
    dsimp only at h ⊢
    cases hlim : parseLimit r.query maxLimit with
    | error resp =>
      rw [hlim] at h
      dsimp only at h
      rw [parseLimit_error_etag hlim] at h
      exact absurd h (by simp)
    | ok limit =>
      rw [hlim] at h
      dsimp only at h ⊢
      cases hpn : parsePage r.query with
      | error resp =>
        rw [hpn] at h
        dsimp only at h
        rw [parsePage_error_etag hpn] at h
        exact absurd h (by simp)
      | ok pageNum =>
        rw [hpn] at h
        dsimp only at h ⊢
        cases hbb : parseBBoxStep r.query pf with
        | error resp =>
          rw [hbb] at h
          dsimp only at h
          rw [parseBBoxStep_error_etag hbb] at h
          exact absurd h (by simp)
        | ok bb =>
          rw [hbb] at h
          dsimp only at h ⊢
          cases htm : parseTimeStep r.query with
          | error resp =>
            rw [htm] at h
            dsimp only at h
            rw [parseTimeStep_error_etag htm] at h
            exact absurd h (by simp)
          | ok tp =>
            rw [htm] at h
            dsimp only at h ⊢
            cases fid? with
            | some fid =>
              dsimp only at h ⊢
              cases hfd : FeatureData r.nameParam fid prov with
              | error e =>
                rw [hfd] at h
                dsimp only at h
                rw [dataError_etag] at h
                exact absurd h (by simp)
              | ok pr =>
                obtain ⟨f, contentId⟩ := pr
                rw [hfd] at h
                dsimp only at h ⊢
                unfold respondFeature at h ⊢
                rw [if_pos hm] at h ⊢
                unfold headResponse at h ⊢
                dsimp only at h
                simp only [Option.some.injEq] at h
                rw [h]
            | none =>
              dsimp only at h ⊢
              cases hfc : FeatureCollectionData r.nameParam prov (limit * pageNum % U64)
                  ((limit * pageNum % U64 + limit) % U64) with
              | error e =>
                rw [hfc] at h
                dsimp only at h
                rw [dataError_etag] at h
                exact absurd h (by simp)
              | ok pr =>
                obtain ⟨c, featureTotal, contentId⟩ := pr
                rw [hfc] at h
                dsimp only at h ⊢
                unfold respondFC at h ⊢
                rw [if_pos hm] at h ⊢
                unfold headResponse at h ⊢
                dsimp only at h
                simp only [Option.some.injEq] at h
                rw [h]

theorem respondFC_etag (r : Request) (sshpb ct cName : String) (c : FeatureCollection)
    (featureTotal : Nat) (contentId : String) (limit pageNum : Nat) :
    (respondFC r sshpb ct cName c featureTotal contentId limit pageNum).etag
      = some contentId := by
  unfold respondFC headResponse
  split <;> rfl

theorem respondFeature_etag (r : Request) (sshpb ct cName : String) (fid : Nat)
    (f : Feature) (contentId : String) :
    (respondFeature r sshpb ct cName fid f contentId).etag = some contentId := by
  unfold respondFeature headResponse
  split <;> rfl

/-- Any `ETag` the items handler emits on the feature-collection path (no
`{feature_id}`) is the FNV-1 hash of the collection name alone, whatever the
method, page, limit, filters or provider reply were. -/
theorem collectionData_fc_etag {r : Request} {sshpb : String} {maxLimit : Nat}
    {pf : String → Bool} {prov : Except ProvErr (List ProviderFeature)} {cid : String}
    (hfid : r.featureIdParam = "")
    (h : (collectionData r sshpb maxLimit pf prov).etag = some cid) :
    cid = fnvHex r.nameParam := by
  unfold collectionData at h
  rw [hfid, show parseFid "" = Except.ok none from rfl] at h
  dsimp only at h
  cases hlim : parseLimit r.query maxLimit with
  | error resp =>
    rw [hlim] at h
    dsimp only at h
    rw [parseLimit_error_etag hlim] at h
    exact absurd h (by simp)
  | ok limit =>
    rw [hlim] at h
    dsimp only at h
    cases hpn : parsePage r.query with
    | error resp =>
      rw [hpn] at h
      dsimp only at h
      rw [parsePage_error_etag hpn] at h
      exact absurd h (by simp)
    | ok pageNum =>
      rw [hpn] at h
      dsimp only at h
      cases hbb : parseBBoxStep r.query pf with
      | error resp =>
        rw [hbb] at h
        dsimp only at h
        rw [parseBBoxStep_error_etag hbb] at h
        exact absurd h (by simp)
      | ok bb =>
        rw [hbb] at h
        dsimp only at h
        cases htm : parseTimeStep r.query with
        | error resp =>
          rw [htm] at h
          dsimp only at h
          rw [parseTimeStep_error_etag htm] at h
          exact absurd h (by simp)
        | ok tp =>
          rw [htm] at h
          dsimp only at h
          cases hfc : FeatureCollectionData r.nameParam prov (limit * pageNum % U64)
              ((limit * pageNum % U64 + limit) % U64) with
          | error e =>
            rw [hfc] at h
            dsimp only at h
            rw [dataError_etag] at h
            exact absurd h (by simp)
          | ok pr =>
            obtain ⟨c, featureTotal, contentId⟩ := pr
            rw [hfc] at h
            dsimp only at h
            rw [respondFC_etag] at h
            simp only [Option.some.injEq] at h
            cases prov with
            | error e => exact absurd hfc (by unfold FeatureCollectionData; simp)
            | ok cfs => rw [← h]; exact (FCD_ok_parts hfc).1

/-- C4 counterexample: a HEAD request with a matching client `ETag` is
answered with a literal 304 status, not with the 200 the claim asserts. -/
theorem C4_counterexample :
    (collectionData c4req "http://test.com" 100 (fun _ => true) (.ok w1feats)).status = 304 ∧
    ¬ (collectionData c4req "http://test.com" 100 (fun _ => true) (.ok w1feats)).status = 200 ∧
    (collectionData c4req "http://test.com" 100 (fun _ => true) (.ok w1feats)).etag
      = some (fnvHex "aviation_polygons") := by
  refine ⟨by decide, by decide, by decide⟩

/-- C4 amended: for every HEAD items request that reaches the data stage (its
response carries an `ETag`), the response has no body and its status is a
literal 304 when the client-supplied `ETag` equals the fingerprint, 200
otherwise; the `ETag` header carries the fingerprint in both cases. -/
theorem C4_amended_head_conditional {r : Request} {sshpb : String} {maxLimit : Nat}
    {pf : String → Bool} {prov : Except ProvErr (List ProviderFeature)} {cid : String}
    (hm : r.method = HTTPMethodHEAD)
    (h : (collectionData r sshpb maxLimit pf prov).etag = some cid) :
    (collectionData r sshpb maxLimit pf prov).status
        = (if r.etagHeader = cid then HTTPStatusNotModified else HTTPStatusOk) ∧
    (collectionData r sshpb maxLimit pf prov).body = .empty ∧
    (collectionData r sshpb maxLimit pf prov).etag = some cid := by
  rw [collectionData_head hm h]
  exact ⟨rfl, rfl, rfl⟩

/-- C4 witness: the non-matching HEAD request gets 200, an empty body and the
fingerprint `ETag`. -/
theorem C4_amended_head_conditional_witness :
    (collectionData c4wreq "http://test.com" 100 (fun _ => true) (.ok w1feats)).status
        = (if c4wreq.etagHeader = fnvHex "aviation_polygons" then HTTPStatusNotModified
           else HTTPStatusOk) ∧
    (collectionData c4wreq "http://test.com" 100 (fun _ => true) (.ok w1feats)).body = .empty ∧
    (collectionData c4wreq "http://test.com" 100 (fun _ => true) (.ok w1feats)).etag
        = some (fnvHex "aviation_polygons") :=
  C4_amended_head_conditional rfl (by decide)

theorem CsMD_ok_contentId {serve : String} {cNames : Except String (List String)}
    {o : CollectionsInfo × String} (h : CollectionsMetaData serve cNames = .ok o) :
    o.2 = fnvHex serve := by
  unfold CollectionsMetaData at h
  cases cNames with
  | error e => exact absurd h (by simp)
  | ok ns =>
    dsimp only at h
    simp only [Except.ok.injEq] at h
    rw [← h]

theorem CMD_ok_contentId {name serve : String} {cNames : Except String (List String)}
    {o : CollectionInfo × String} (h : CollectionMetaData name cNames serve = .ok o) :
    o.2 = fnvHex (serve ++ name) := by
  unfold CollectionMetaData at h
  cases cNames with
  | error e => exact absurd h (by simp)
  | ok ns =>
    dsimp only at h
    split at h
    · simp only [Except.ok.injEq] at h
      rw [← h]
    · exact absurd h (by simp)

theorem FD_ok_contentId' {cname : String} {fid : Nat}
    {prov : Except ProvErr (List ProviderFeature)} {o : Feature × String}
    (h : FeatureData cname fid prov = .ok o) :
    o.2 = fnvHex (cname ++ toString fid) := by
  cases prov with
  | error e =>
    unfold FeatureData at h
    exact absurd h (by simp)
  | ok pfs =>
    obtain ⟨f, cid⟩ := o
    exact FD_ok_contentId h

/-- C7: fingerprints are pure functions of their decisive inputs.  The
feature-collection-listing `ETag` depends on the collection name alone — any
two items requests with the same `{name}` agree, whatever their method, page,
limit, bbox, filters, serve address, limit cap or provider reply — and the
collection list (serve address), single collection (serve address + name) and
single feature (name + id) fingerprints agree whenever their decisive inputs
agree. -/
theorem C7_fingerprint_decisive_inputs :
    (∀ (r₁ r₂ : Request) (s₁ s₂ : String) (m₁ m₂ : Nat) (pf₁ pf₂ : String → Bool)
        (p₁ p₂ : Except ProvErr (List ProviderFeature)) (e₁ e₂ : String),
      r₁.featureIdParam = "" → r₂.featureIdParam = "" → r₁.nameParam = r₂.nameParam →
      (collectionData r₁ s₁ m₁ pf₁ p₁).etag = some e₁ →
      (collectionData r₂ s₂ m₂ pf₂ p₂).etag = some e₂ → e₁ = e₂) ∧
    (∀ (serve : String) (p₁ p₂ : Except String (List String))
        (o₁ o₂ : CollectionsInfo × String),
      CollectionsMetaData serve p₁ = .ok o₁ → CollectionsMetaData serve p₂ = .ok o₂ →
      o₁.2 = o₂.2) ∧
    (∀ (name serve : String) (p₁ p₂ : Except String (List String))
        (o₁ o₂ : CollectionInfo × String),
      CollectionMetaData name p₁ serve = .ok o₁ → CollectionMetaData name p₂ serve = .ok o₂ →
      o₁.2 = o₂.2) ∧
    (∀ (cname : String) (fid : Nat) (p₁ p₂ : Except ProvErr (List ProviderFeature))
        (o₁ o₂ : Feature × String),
      FeatureData cname fid p₁ = .ok o₁ → FeatureData cname fid p₂ = .ok o₂ →
      o₁.2 = o₂.2) := by
  refine ⟨?_, ?_, ?_, ?_⟩
  · intro r₁ r₂ s₁ s₂ m₁ m₂ pf₁ pf₂ p₁ p₂ e₁ e₂ h₁ h₂ hn he₁ he₂
    rw [collectionData_fc_etag h₁ he₁, collectionData_fc_etag h₂ he₂, hn]
  · intro serve p₁ p₂ o₁ o₂ h₁ h₂
    rw [CsMD_ok_contentId h₁, CsMD_ok_contentId h₂]
  · intro name serve p₁ p₂ o₁ o₂ h₁ h₂
    rw [CMD_ok_contentId h₁, CMD_ok_contentId h₂]
  · intro cname fid p₁ p₂ o₁ o₂ h₁ h₂
    rw [FD_ok_contentId' h₁, FD_ok_contentId' h₂]

/-- C7 witness: both requests produce an `ETag`, and the theorem identifies
them. -/
theorem C7_fingerprint_decisive_inputs_witness :
    (collectionData c7reqA "http://a" 100 (fun _ => true) (.ok w1feats)).etag
      = some (fnvHex "aviation_polygons") ∧
    (collectionData c7reqB "http://b" 50 (fun _ => true) (.ok w1feats)).etag
      = some (fnvHex "aviation_polygons") ∧
    fnvHex "aviation_polygons" = fnvHex "aviation_polygons" := by
  refine ⟨by decide, by decide, ?_⟩
  exact C7_fingerprint_decisive_inputs.1 c7reqA c7reqB "http://a" "http://b" 100 50
    (fun _ => true) (fun _ => true) (.ok w1feats) (.ok w1feats)
    (fnvHex "aviation_polygons") (fnvHex "aviation_polygons")
    rfl rfl rfl (by decide) (by decide)

/-- C9 counterexample: a GET for `/collections/{name}` with an empty `{name}`
is answered 400 (`MissingParameterValue`), not with a 500-class error as the
claim asserts. -/
theorem C9_counterexample :
    (collectionMetaDataHandler { method := "GET", nameParam := "" } "http://test.com"
        (.ok ["roads_lines"])).status = 400 ∧
    ¬ 500 ≤ (collectionMetaDataHandler { method := "GET", nameParam := "" } "http://test.com"
        (.ok ["roads_lines"])).status := by
  refine ⟨by decide, by decide⟩

/-- C9 amended: an unknown (non-empty) `{name}` yields the 500
`NoApplicableCode` error; an empty `{name}` yields the 400
`MissingParameterValue` error instead. -/
theorem C9_amended_name_errors (r : Request) (sshpb : String) (ns : List String) :
    (r.nameParam ≠ "" → r.nameParam ∉ ns →
      collectionMetaDataHandler r sshpb (.ok ns) =
        jsonError none "NoApplicableCode" ("Invalid collection name: " ++ r.nameParam)
          HTTPStatusServerError) ∧
    (r.nameParam = "" →
      collectionMetaDataHandler r sshpb (.ok ns) =
        jsonError none "MissingParameterValue" "No \x7bname\x7d provided"
          HTTPStatusClientError) := by
  constructor
  · intro hne hnm
    unfold collectionMetaDataHandler
    rw [if_neg hne]
    have hcmd : CollectionMetaData r.nameParam (.ok ns) sshpb =
        .error ("Invalid collection name: " ++ r.nameParam) := by
      unfold CollectionMetaData
      dsimp only
      rw [if_neg (by simpa using hnm)]
    rw [hcmd]
  · intro he
    unfold collectionMetaDataHandler
    rw [he, if_pos rfl]

/-- C9 witness: the unknown name `nope` produces the 500 error response. -/
theorem C9_amended_name_errors_witness :
    collectionMetaDataHandler { method := "GET", nameParam := "nope" } "http://test.com"
        (.ok ["roads_lines"]) =
      jsonError none "NoApplicableCode" "Invalid collection name: nope"
        HTTPStatusServerError :=
  (C9_amended_name_errors { method := "GET", nameParam := "nope" } "http://test.com"
    ["roads_lines"]).1 (by decide) (by decide)

theorem supported_eq {x : String} (h : supportedContentType x = true) :
    x = JSONContentType ∨ x = HTMLContentType := by
  unfold supportedContentType at h
  simpa using h

/-- The negotiated content type is always one of the two supported ones. -/
theorem contentType_mem (r : Request) :
    contentType r = JSONContentType ∨ contentType r = HTMLContentType := by
  rw [contentType_precedence r]
  cases qGet r.query "f" with
  | nil =>
    dsimp only
    split
    · rename_i h
      exact supported_eq h
    · left
      rfl
  | cons f0 rest =>
    dsimp only
    split
    · rename_i h
      exact supported_eq h
    · left
      rfl

/-- With a parsed `{feature_id}` and all query parameters parsing, the handler
reduces to the single-feature fetch and response. -/
theorem collectionData_feature_eq
    {r : Request} {sshpb : String} {maxLimit : Nat} {pf : String → Bool}
    {prov : Except ProvErr (List ProviderFeature)} {fid limit pageNum : Nat}
    {bb : Option (List String)} {tp : List (String × String)}
    (hfid : parseFid r.featureIdParam = .ok (some fid))
    (hl : parseLimit r.query maxLimit = .ok limit)
    (hp : parsePage r.query = .ok pageNum)
    (hb : parseBBoxStep r.query pf = .ok bb)
    (ht : parseTimeStep r.query = .ok tp) :
    collectionData r sshpb maxLimit pf prov =
      match FeatureData r.nameParam fid prov with
      | .error e => dataError e
      | .ok (f, contentId) =>
        respondFeature r sshpb (contentType r) r.nameParam fid f contentId := by
  unfold collectionData
  rw [hfid, hl, hp, hb, ht]

/-- A successfully fetched feature envelope starts with no links. -/
theorem FD_ok_links {cname : String} {fid : Nat}
    {prov : Except ProvErr (List ProviderFeature)} {f : Feature} {cid : String}
    (h : FeatureData cname fid prov = .ok (f, cid)) : f.links = [] := by
  unfold FeatureData at h
  cases prov with
  | error e => exact absurd h (by simp)
  | ok pfs =>
    dsimp only at h
    split at h
    · simp only [Except.ok.injEq, Prod.mk.injEq] at h
      rw [← h.1]
    · exact absurd h (by simp)

/-- The link list of a GET single-feature response: one link per supported
content type in `SupportedContentTypes` order — rel `self` exactly at the
negotiated type, `alternate` elsewhere — then the `collection` link. -/
theorem respondFeature_links
    {r : Request} {sshpb ct cName : String} {fid : Nat} {f : Feature} {contentId : String}
    (hm : r.method ≠ HTTPMethodHEAD) (hfl : f.links = []) :
    featLinks (respondFeature r sshpb ct cName fid f contentId) =
      SupportedContentTypes.map (fun sct =>
        { rel := if sct = ct then "self" else "alternate",
          href := ctLink (sshpb ++ "/collections/" ++ cName ++ "/items/" ++ toString fid)
            [] sct, type := sct })
      ++ [{ rel := "collection", href := ctLink (sshpb ++ "/collections/" ++ cName) [] ct,
            type := ct }] := by
  unfold respondFeature featLinks
  rw [if_neg hm]
  dsimp only
  rw [hfl]
  rfl

/-- C8 counterexample: for the HTML-negotiated single-feature envelope the
first link is the JSON `alternate` link, not the self link — the self link
sits second — refuting "self link first for every negotiated content type". -/
theorem C8_counterexample :
    ((featLinks (collectionData c8req "http://tdd.net" 100 (fun _ => true)
        (.ok [{ id := 18 }]))).map (fun l => l.rel)) = ["alternate", "self", "collection"] ∧
    ((featLinks (collectionData c8req "http://tdd.net" 100 (fun _ => true)
        (.ok [{ id := 18 }]))).map (fun l => l.rel)).head? ≠ some "self" ∧
    contentType c8req = HTMLContentType := by
  refine ⟨by decide, by decide, by decide⟩

/-- C8 amended: every successful GET envelope carries a self link in the
negotiated format.  Feature-collection envelopes are ordered self, then
alternates, then only `prev`/`next` navigational links.  Single-feature
envelopes order their links by the supported-content-types list — rel `self`
exactly at the negotiated type, `alternate` at the others — followed by the
`collection` link, so the self link comes first only when the negotiated type
is the first supported type (JSON). -/
theorem C8_amended_link_order :
    (∀ (r : Request) (sshpb : String) (maxLimit : Nat) (pf : String → Bool)
        (cfs : List ProviderFeature) (limit pageNum : Nat) (bb : Option (List String))
        (tp : List (String × String)) (c : FeatureCollection),
      r.method = HTTPMethodGET → r.featureIdParam = "" →
      parseLimit r.query maxLimit = .ok limit → parsePage r.query = .ok pageNum →
      parseBBoxStep r.query pf = .ok bb → parseTimeStep r.query = .ok tp →
      cfs.length < 2 ^ 63 → limit * pageNum < cfs.length →
      (collectionData r sshpb maxLimit pf (.ok cfs)).body = .fc c →
      ∃ navRels, c.links.map (fun l => l.rel)
          = "self" :: ((altContentTypes (contentType r)).map (fun _ => "alternate") ++ navRels)
        ∧ ∀ x ∈ navRels, x = "prev" ∨ x = "next") ∧
    (∀ (r : Request) (sshpb : String) (maxLimit : Nat) (pf : String → Bool)
        (prov : Except ProvErr (List ProviderFeature)) (fid limit pageNum : Nat)
        (bb : Option (List String)) (tp : List (String × String)) (f : Feature),
      r.method = HTTPMethodGET → parseFid r.featureIdParam = .ok (some fid) →
      parseLimit r.query maxLimit = .ok limit → parsePage r.query = .ok pageNum →
      parseBBoxStep r.query pf = .ok bb → parseTimeStep r.query = .ok tp →
      (collectionData r sshpb maxLimit pf prov).body = .feature f →
      f.links.map (fun l => l.rel)
          = SupportedContentTypes.map (fun sct =>
              if sct = contentType r then "self" else "alternate") ++ ["collection"]
        ∧ "self" ∈ f.links.map (fun l => l.rel)) := by
  constructor
  · intro r sshpb maxLimit pf cfs limit pageNum bb tp c hm hfid hl hp hb ht hlen hwin hbody
    have hm' : r.method ≠ HTTPMethodHEAD := by rw [hm]; decide
    have key := @collectionData_fc_success r sshpb maxLimit pf cfs limit pageNum bb tp
      hfid hl hp hb ht hlen hwin
    have hclinks : c.links = fcLinks (collectionData r sshpb maxLimit pf (.ok cfs)) := by
      unfold fcLinks
      rw [hbody]
    rw [key, respondFC_links hm' rfl] at hclinks
    rw [hclinks]
    refine ⟨(if 0 < pageNum then ["prev"] else [])
        ++ (if cfs.length > limit * ((pageNum + 1) % U64) % U64 then ["next"] else []), ?_, ?_⟩
    · simp only [List.map_cons, List.map_append, List.map_map, Function.comp_def,
        apply_ite (List.map (fun l : Link => l.rel)), List.map_nil]
      simp [List.append_assoc]
    · intro x hx
      rcases List.mem_append.mp hx with h | h
      · left
        split at h
        · exact List.mem_singleton.mp h
        · exact absurd h (List.not_mem_nil x)
      · right
        split at h
        · exact List.mem_singleton.mp h
        · exact absurd h (List.not_mem_nil x)
  · intro r sshpb maxLimit pf prov fid limit pageNum bb tp f hm hfid hl hp hb ht hbody
    have hm' : r.method ≠ HTTPMethodHEAD := by rw [hm]; decide
    have key := @collectionData_feature_eq r sshpb maxLimit pf prov fid limit pageNum bb tp
      hfid hl hp hb ht
    rw [key] at hbody
    cases hfd : FeatureData r.nameParam fid prov with
    | error e =>
      rw [hfd] at hbody
      exact absurd hbody (by unfold dataError jsonError; cases e <;> simp)
    | ok pr =>
      obtain ⟨f0, contentId⟩ := pr
      rw [hfd] at hbody
      dsimp only at hbody
      have hb2 : (respondFeature r sshpb (contentType r) r.nameParam fid f0 contentId).body
          = Body.feature f := hbody
      have hflinks : f.links = featLinks (respondFeature r sshpb (contentType r)
          r.nameParam fid f0 contentId) := by
        unfold featLinks
        rw [hb2]
      rw [respondFeature_links hm' (FD_ok_links hfd)] at hflinks
      have hmap : f.links.map (fun l => l.rel)
          = SupportedContentTypes.map (fun sct =>
              if sct = contentType r then "self" else "alternate") ++ ["collection"] := by
        rw [hflinks]
        simp only [List.map_append, List.map_map, Function.comp_def]
        rfl
      refine ⟨hmap, ?_⟩
      rw [hmap]
      rcases contentType_mem r with hct | hct <;> rw [hct] <;> decide

/-- C8 witness: the JSON single-feature request yields links
`[self(json), alternate(html), collection]` with the self link present. -/
theorem C8_amended_link_order_witness :
    ∃ f, (collectionData c8wreq "http://tdd.net" 100 (fun _ => true)
        (.ok [{ id := 18 }])).body = .feature f ∧
      f.links.map (fun l => l.rel)
          = SupportedContentTypes.map (fun sct =>
              if sct = contentType c8wreq then "self" else "alternate") ++ ["collection"] ∧
      "self" ∈ f.links.map (fun l => l.rel) := by
  obtain ⟨f, hf⟩ : ∃ f, (collectionData c8wreq "http://tdd.net" 100 (fun _ => true)
      (.ok [{ id := 18 }])).body = .feature f := by
    rw [@collectionData_feature_eq c8wreq "http://tdd.net" 100 (fun _ => true)
      (.ok [{ id := 18 }]) 18 10 0 none [] rfl rfl rfl rfl rfl]
    exact ⟨_, rfl⟩
  obtain ⟨hmap, hmem⟩ := C8_amended_link_order.2 c8wreq "http://tdd.net" 100
    (fun _ => true) (.ok [{ id := 18 }]) 18 10 0 none [] f
    rfl rfl rfl rfl rfl rfl hf
  exact ⟨f, hf, hmap, hmem⟩

/-- Identification of `prev`/`next` links in a list made of self/alternate
links followed by a conditional `prev` and a conditional `next` entry. -/
theorem prevnext_href {base : List Link} {p n : Link} (cp cn : Prop)
    [Decidable cp] [Decidable cn]
    (hbase : ∀ l ∈ base, l.rel = "self" ∨ l.rel = "alternate")
    (hp : p.rel = "prev") (hn : n.rel = "next") :
    ∀ l ∈ (base ++ (if cp then [p] else [])) ++ (if cn then [n] else []),
      (l.rel = "prev" → l = p) ∧ (l.rel = "next" → l = n) := by
  intro l hl
  constructor
  · intro hr
    rcases List.mem_append.mp hl with h | h
    · rcases List.mem_append.mp h with h | h
      · rcases hbase l h with hb | hb <;> rw [hr] at hb <;> exact absurd hb (by decide)
      · by_cases hcp : cp
        · rw [if_pos hcp] at h
          exact List.mem_singleton.mp h
        · rw [if_neg hcp] at h
          exact absurd h (List.not_mem_nil l)
    · by_cases hcn : cn
      · rw [if_pos hcn] at h
        rw [List.mem_singleton.mp h, hn] at hr
        exact absurd hr (by decide)
      · rw [if_neg hcn] at h
        exact absurd h (List.not_mem_nil l)
  · intro hr
    rcases List.mem_append.mp hl with h | h
    · rcases List.mem_append.mp h with h | h
      · rcases hbase l h with hb | hb <;> rw [hr] at hb <;> exact absurd hb (by decide)
      · by_cases hcp : cp
        · rw [if_pos hcp] at h
          rw [List.mem_singleton.mp h, hp] at hr
          exact absurd hr (by decide)
        · rw [if_neg hcp] at h
          exact absurd h (List.not_mem_nil l)
    · by_cases hcn : cn
      · rw [if_pos hcn] at h
        exact List.mem_singleton.mp h
      · rw [if_neg hcn] at h
        exact absurd h (List.not_mem_nil l)

/-- A self link followed by mapped alternate links only carries rels `self`
and `alternate`. -/
theorem base_rels {selfL : Link} {A : List String} {mk : String → Link}
    (hs : selfL.rel = "self") (ha : ∀ a, (mk a).rel = "alternate") :
    ∀ l ∈ selfL :: A.map mk, l.rel = "self" ∨ l.rel = "alternate" := by
  intro l hl
  rcases List.mem_cons.mp hl with h | h
  · left
    rw [h, hs]
  · obtain ⟨a, -, h⟩ := List.mem_map.mp h
    right
    rw [← h, ha]

/-- C6 counterexample: with the `aeroway=helipad` filter active, the `next`
link's URL is `...items?limit=3&page=2` — its query keys are exactly `limit`
and `page`; the filter is not re-encoded, so the filtered page is not
recoverable from the URL alone. -/
theorem C6_counterexample :
    ((fcLinks (collectionData c6req "http://test.com" 100 (fun _ => true)
          (.ok w1feats))).filter (fun l => l.rel = "next")).map (fun l => l.href)
        = ["http://test.com/collections/aviation_polygons/items?limit=3&page=2"] ∧
    splitChar '?' "http://test.com/collections/aviation_polygons/items?limit=3&page=2"
        = ["http://test.com/collections/aviation_polygons/items", "limit=3&page=2"] ∧
    (splitChar '&' "limit=3&page=2").map (fun part => (splitChar '=' part).headD "")
        = ["limit", "page"] ∧
    qGet c6req.query "aeroway" = ["helipad"] ∧
    "aeroway" ∉ ["limit", "page"] := by
  refine ⟨by decide, by decide, by decide, by decide, by decide⟩

/-- C6 amended: the `prev` and `next` links of a successful response
re-encode only the `page` and `limit` parameters (`page∓1` with the same
limit, keys sorted and escaped as Go's `url.Values.Encode` does); bbox, time
and property filters are not re-encoded into them. -/
theorem C6_amended_page_limit_only
    {r : Request} {sshpb : String} {maxLimit : Nat} {pf : String → Bool}
    {cfs : List ProviderFeature} {limit pageNum : Nat}
    {bb : Option (List String)} {tp : List (String × String)} {c : FeatureCollection}
    (hm : r.method = HTTPMethodGET)
    (hfid : r.featureIdParam = "")
    (hl : parseLimit r.query maxLimit = .ok limit)
    (hp : parsePage r.query = .ok pageNum)
    (hb : parseBBoxStep r.query pf = .ok bb)
    (ht : parseTimeStep r.query = .ok tp)
    (hlen : cfs.length < 2 ^ 63)
    (hwin : limit * pageNum < cfs.length)
    (hbody : (collectionData r sshpb maxLimit pf (.ok cfs)).body = .fc c) :
    (∀ l ∈ c.links, l.rel = "prev" →
      l.href = pageLink sshpb r.nameParam (pageNum - 1) limit) ∧
    (∀ l ∈ c.links, l.rel = "next" →
      l.href = pageLink sshpb r.nameParam ((pageNum + 1) % U64) limit) := by
  have hm' : r.method ≠ HTTPMethodHEAD := by rw [hm]; decide
  have key := @collectionData_fc_success r sshpb maxLimit pf cfs limit pageNum bb tp
    hfid hl hp hb ht hlen hwin
  have hclinks : c.links = fcLinks (collectionData r sshpb maxLimit pf (.ok cfs)) := by
    unfold fcLinks
    rw [hbody]
  rw [key, respondFC_links hm' rfl] at hclinks
  have H := @prevnext_href
    ((⟨ctLink (sshpb ++ "/collections/" ++ r.nameParam ++ "/items") [("page", toString pageNum), ("limit", toString limit)] (contentType r), "self", contentType r⟩ : Link)
      :: (altContentTypes (contentType r)).map (fun act => (⟨ctLink (sshpb ++ "/collections/" ++ r.nameParam ++ "/items") [("page", toString pageNum), ("limit", toString limit)] act, "alternate", act⟩ : Link)))
    (⟨pageLink sshpb r.nameParam (pageNum - 1) limit, "prev", contentType r⟩ : Link)
    (⟨pageLink sshpb r.nameParam ((pageNum + 1) % U64) limit, "next", contentType r⟩ : Link)
    (0 < pageNum) (cfs.length > limit * ((pageNum + 1) % U64) % U64) _ _
    (base_rels rfl (fun a => rfl)) rfl rfl
  constructor
  · intro l hl' hr
    rw [hclinks] at hl'
    rw [(H l hl').1 hr]
  · intro l hl' hr
    rw [hclinks] at hl'
    rw [(H l hl').2 hr]

/-- C6 witness: on the §8 example request with a property filter, the `next`
link's href equals the page/limit-only re-encoding. -/
theorem C6_amended_page_limit_only_witness :
    ∃ c, (collectionData c6req "http://test.com" 100 (fun _ => true)
        (.ok w1feats)).body = .fc c ∧
      (∀ l ∈ c.links, l.rel = "prev" →
        l.href = pageLink "http://test.com" "aviation_polygons" (1 - 1) 3) ∧
      (∀ l ∈ c.links, l.rel = "next" →
        l.href = pageLink "http://test.com" "aviation_polygons" ((1 + 1) % U64) 3) := by
  obtain ⟨c, hc⟩ : ∃ c, (collectionData c6req "http://test.com" 100 (fun _ => true)
      (.ok w1feats)).body = .fc c := by
    rw [@collectionData_fc_success c6req "http://test.com" 100 (fun _ => true)
      w1feats 3 1 none [] rfl rfl rfl rfl rfl (by decide) (by decide)]
    unfold respondFC
    rw [if_neg (by decide)]
    exact ⟨_, rfl⟩
  exact ⟨c, hc, @C6_amended_page_limit_only c6req "http://test.com" 100 (fun _ => true)
    w1feats 3 1 none [] c rfl rfl rfl rfl rfl rfl (by decide) (by decide) hc⟩

end GoWfs
